import Mathlib

/-!
# Verification of the multijob C++ command-line codec

Shallow embedding of the C++ library `multijob` (command-line decoder side):

* `split_arg`, `separate_argv`, `parse_commandline` from `cpp/multijob.cpp`
  (the version that skips `argv[0]` and converts IDs via `convert_str_to_ul`),
* `Args` and its extraction methods `get_s` / `get_i` / `get_d` / `get_b` /
  `no_further_arguments` from `cpp/Args.cpp` (the snapshot using
  `conversion.h`, consistent with `multijob.cpp` and with `Args.h` which
  declares `get_u`),
* `convert_str_to_i`, `convert_str_to_ul`, `convert_str_to_ld` from
  `conversion.cpp`, which are built on `std::stoi` / `std::stoul` /
  `std::stod` with base argument `0` (C `strtol`-style base detection).

Strings are Lean `String`s (a `String` is a structure holding a `List Char`);
the unordered maps are association lists with unique keys, with
insert-or-assign, find and erase mirroring `std::unordered_map` usage in the
source.  C++ exceptions become an explicit error type `MultijobError`; the
mutating methods of `Args` are state-passing functions that return the
post-call `Args` next to the would-be return value or thrown error, which
mirrors the fact that a C++ method may mutate `this` before throwing.
Machine integers are `Nat`/`Int` with explicit reduction modulo `2 ^ 64`
(`unsigned long`) and `2 ^ 32` (`ID = std::uint32_t`).
-/

namespace Multijob

/-! ## C numeric string conversions (`std::stoul` / `std::stoi`, base 0)

Model of C `strtol`/`strtoul` as used by `std::stoul(s, &pos, 0)` and
`std::stoi(s, &pos, 0)` on a 64-bit platform: skip leading whitespace, an
optional sign, base detection for base 0 (`0x`/`0X` prefix means
hexadecimal when followed by a hex digit, a leading `0` means octal,
otherwise decimal), then the longest run of digits of the effective base.
`consumed = 0` encodes "no conversion could be performed"
(`std::invalid_argument`); the magnitude is kept exact so that range
checks can be stated explicitly. -/

/-- The six characters accepted by C `isspace` in the default locale. -/
def isSpaceChar (c : Char) : Bool :=
  c = ' ' || c = '\t' || c = '\n' || c = '\x0b' || c = '\x0c' || c = '\r'

/-- Value of `c` as a digit in base `b` (digits `0-9`, `a-z`, `A-Z`),
`none` if `c` is not a digit of that base.  Character classes are stated
on the code point, as C does on the character value. -/
def digitValueIn (b : Nat) (c : Char) : Option Nat :=
  if 48 ≤ c.toNat ∧ c.toNat ≤ 57 then
    (if c.toNat - 48 < b then some (c.toNat - 48) else none)
  else if 97 ≤ c.toNat ∧ c.toNat ≤ 122 then
    (if c.toNat - 87 < b then some (c.toNat - 87) else none)
  else if 65 ≤ c.toNat ∧ c.toNat ≤ 90 then
    (if c.toNat - 55 < b then some (c.toNat - 55) else none)
  else none

/-- Outcome of the C `strtol`/`strtoul` scan: sign, exact magnitude, and
number of characters consumed (`0` when no conversion was performed). -/
structure StrtoResult where
  neg : Bool
  mag : Nat
  consumed : Nat
deriving DecidableEq, Repr

/-- Split an optional leading sign: returns (negative?, chars consumed, rest). -/
def splitSign : List Char → Bool × Nat × List Char
  | [] => (false, 0, [])
  | c :: r =>
    if c = '-' then (true, 1, r)
    else if c = '+' then (false, 1, r)
    else (false, 0, c :: r)

/-- Is the first character a hexadecimal digit? -/
def headIsHexDigit : List Char → Bool
  | d :: _ => (digitValueIn 16 d).isSome
  | [] => false

/-- C base detection: for base 0 or 16, a `0x`/`0X` prefix followed by a hex
digit selects base 16 and consumes the prefix; otherwise for base 0 a
leading `0` selects octal and no leading `0` selects decimal.
Returns (effective base, marker chars consumed, rest). -/
def detectBase (base : Nat) (s : List Char) : Nat × Nat × List Char :=
  match s with
  | c0 :: c1 :: rest =>
    if c0 = '0' ∧ (base = 0 ∨ base = 16) ∧ (c1 = 'x' ∨ c1 = 'X') ∧ headIsHexDigit rest then
      (16, 2, rest)
    else if base = 0 then
      (if c0 = '0' then (8, 0, s) else (10, 0, s))
    else (base, 0, s)
  | c0 :: [] =>
    if base = 0 then
      (if c0 = '0' then (8, 0, s) else (10, 0, s))
    else (base, 0, s)
  | [] => if base = 0 then (10, 0, s) else (base, 0, s)

/-- The C `strtol`/`strtoul` scan of a character sequence. -/
def strtoParse (base : Nat) (s : List Char) : StrtoResult :=
  let afterWs := s.dropWhile isSpaceChar
  let wsLen := s.length - afterWs.length
  let sg := splitSign afterWs
  let bp := detectBase base sg.2.2
  let digits := bp.2.2.takeWhile (fun c => (digitValueIn bp.1 c).isSome)
  let mag := digits.foldl (fun n c => n * bp.1 + (digitValueIn bp.1 c).getD 0) 0
  if digits.isEmpty then { neg := sg.1, mag := 0, consumed := 0 }
  else { neg := sg.1, mag := mag, consumed := wsLen + sg.2.1 + bp.2.1 + digits.length }

/-- The two exception kinds of the `std::stoX` family:
`std::invalid_argument` and `std::out_of_range`. -/
inductive NumFail where
  | invalidArg
  | outOfRange
deriving DecidableEq, Repr

/-- `2 ^ 64`, one more than `ULONG_MAX` on the 64-bit platform. -/
def ulongMod : Nat := 2 ^ 64

/-- `std::stoul(s, &pos, base)`: error `invalidArg` when no conversion is
performed, `outOfRange` when the magnitude exceeds `ULONG_MAX`; otherwise
the `unsigned long` value (a leading `-` wraps modulo `2 ^ 64`) and the
position of the first unconsumed character. -/
def stoulMdl (base : Nat) (s : String) : Except NumFail (Nat × Nat) :=
  match strtoParse base s.data with
  | ⟨ng, mag, consumed⟩ =>
    if consumed = 0 then .error .invalidArg
    else if ulongMod ≤ mag then .error .outOfRange
    else .ok ((if ng then (ulongMod - mag) % ulongMod else mag), consumed)

/-- `INT_MIN` as an integer. -/
def intMin : Int := -(2 ^ 31)

/-- `INT_MAX` as an integer. -/
def intMax : Int := 2 ^ 31 - 1

/-- `std::stoi(s, &pos, base)`: `strtol` followed by the `int` range check.
A value outside `[INT_MIN, INT_MAX]` (which subsumes the `strtol` `ERANGE`
cases on a 64-bit `long`) raises `out_of_range`. -/
def stoiMdl (base : Nat) (s : String) : Except NumFail (Int × Nat) :=
  match strtoParse base s.data with
  | ⟨ng, mag, consumed⟩ =>
    if consumed = 0 then .error .invalidArg
    else
      let v : Int := if ng then -(mag : Int) else (mag : Int)
      if v < intMin ∨ intMax < v then .error .outOfRange
      else .ok (v, consumed)

/-! ## `std::strtod` consumed-prefix model

`convert_str_to_ld` calls `std::stod`.  The floating-point *value* is
binary64 and is not modelled (no claim depends on it); what the library
observes is only *whether* `stod` throws and how many characters it
consumes, which follows the C `strtod` grammar modelled here:
whitespace, sign, then a decimal mantissa with optional fraction and
`e`-exponent, a hexadecimal `0x` mantissa with optional `p`-exponent, or
case-insensitive `inf`/`infinity`/`nan(...)`.  `std::out_of_range` from
`stod` depends on the binary64 magnitude and is likewise not modelled. -/

/-- Is `c` a hexadecimal digit? -/
def hexDigitB (c : Char) : Bool := (digitValueIn 16 c).isSome

/-- Is `c` a decimal digit? -/
def decDigitB (c : Char) : Bool := (digitValueIn 10 c).isSome

/-- Characters consumed by an exponent part `(e|E|p|P) [+|-] digits`;
`0` if the exponent marker is not followed by at least one digit. -/
def expPartLen (eMarks : List Char) (s : List Char) : Nat :=
  match s with
  | [] => 0
  | c :: r =>
    if eMarks.contains c then
      match r with
      | [] => 0
      | sgn :: r2 =>
        if sgn = '+' ∨ sgn = '-' then
          (let d := r2.takeWhile decDigitB
           if d.isEmpty then 0 else 2 + d.length)
        else
          (let d := r.takeWhile decDigitB
           if d.isEmpty then 0 else 1 + d.length)
    else 0

/-- Characters consumed by `digits [ '.' digits ] [ exponent ]` with at
least one mantissa digit required; `0` when there is no valid mantissa. -/
def mantissaLen (digitB : Char → Bool) (eMarks : List Char) (s : List Char) : Nat :=
  let intPart := s.takeWhile digitB
  let rest1 := s.drop intPart.length
  let fracLen :=
    match rest1 with
    | '.' :: r => 1 + (r.takeWhile digitB).length
    | _ => 0
  let mantDigits := intPart.length + (fracLen - min fracLen 1)
  if mantDigits = 0 then 0
  else
    let mantLen := intPart.length + fracLen
    mantLen + expPartLen eMarks (s.drop mantLen)

/-- Does `input` start with `pat`, compared case-insensitively? -/
def matchesCI : List Char → List Char → Bool
  | [], _ => true
  | _ :: _, [] => false
  | p :: ps, c :: cs => p.toLower = c.toLower && matchesCI ps cs

/-- Characters consumed by the optional `(chars)` suffix of `nan`. -/
def nanParenLen : List Char → Nat
  | '(' :: r =>
    let inside := r.takeWhile (fun c => c.isAlphanum || c = '_')
    (match r.drop inside.length with
     | ')' :: _ => inside.length + 2
     | _ => 0)
  | _ => 0

/-- Characters consumed by C `strtod`; `0` when no conversion is performed. -/
def strtodConsumed (s : List Char) : Nat :=
  let afterWs := s.dropWhile isSpaceChar
  let wsLen := s.length - afterWs.length
  let sg := splitSign afterWs
  let body := sg.2.2
  let bodyLen :=
    if matchesCI "infinity".data body then 8
    else if matchesCI "inf".data body then 3
    else if matchesCI "nan".data body then 3 + nanParenLen (body.drop 3)
    else
      match body with
      | '0' :: c :: r =>
        if c = 'x' ∨ c = 'X' then
          (let h := mantissaLen hexDigitB ['p', 'P'] r
           if h = 0 then 1 else 2 + h)
        else mantissaLen decDigitB ['e', 'E'] body
      | _ => mantissaLen decDigitB ['e', 'E'] body
  if bodyLen = 0 then 0 else wsLen + sg.2.1 + bodyLen

/-! ## The error type

In C++ every failure is a `MultijobError` exception whose message is built
at the throw site (`MULTIJOB_ERROR` prepends `"multijob: "`).  Each
constructor below corresponds to one family of throw sites and carries the
data interpolated into the message; `renderError` rebuilds the message
text.  The spec's error taxonomy maps onto the constructors as follows:
`MalformedArgumentError` = `malformedArg`, `MissingSpecialArgumentError` =
`missingSpecial`, `UnknownSpecialArgumentError` = `unknownSpecial`,
`InvalidIdError`/`CoercionError` (not parseable, trailing characters, or
out of range) = `cantParse`/`outOfRangeParse`/`notBoolean`,
`MissingParameterError` = `missingParam`, `UnconsumedArgumentsError` =
`unconsumed`. -/

/-- The errors thrown by the library (`MultijobError` exceptions,
distinguished by their message construction site). -/
inductive MultijobError where
  | malformedArg (arg : String)
  | missingSpecial (idName key : String)
  | unknownSpecial (keys : List String)
  | cantParse (name s ty : String)
  | outOfRangeParse (name s : String)
  | missingParam (name : String)
  | notBoolean (name s : String)
  | unconsumed (keys : List String)
deriving DecidableEq, Repr

/-- `std::quoted`: wrap in `"` and escape embedded `"` and `\` with `\`. -/
def escapeQ : List Char → List Char
  | [] => []
  | c :: r =>
    if c = '"' ∨ c = '\\' then '\\' :: c :: escapeQ r else c :: escapeQ r

/-- `std::quoted` applied to a string. -/
def quoteStd (s : String) : String :=
  ⟨'"' :: (escapeQ s.data ++ ['"'])⟩

/-- `joined_and_quoted(", ", …)`: each element `std::quoted`, joined with
`", "` (the `operator<<` of `JoinedAndQuoted` writes a literal `", "`
between elements). -/
def joinedAndQuoted (keys : List String) : String :=
  String.intercalate ", " (keys.map quoteStd)

/-- The message text of each error, as assembled at the C++ throw sites
(the implementation-defined `ex.what()` suffixes that `conversion.cpp`
appends after `std::invalid_argument` / `std::out_of_range` are omitted). -/
def renderError : MultijobError → String
  | .malformedArg arg =>
    "multijob: can't split as argument: " ++ quoteStd arg
  | .missingSpecial idName key =>
    "multijob: special " ++ idName ++ " argument " ++ quoteStd key ++ " required"
  | .unknownSpecial keys =>
    "multijob: unknown special arguments before " ++ quoteStd "--" ++
      " separator: " ++ joinedAndQuoted keys
  | .cantParse name s ty =>
    "multijob: can't parse " ++ name ++ ": " ++ quoteStd s ++ " is not " ++ ty
  | .outOfRangeParse name s =>
    "multijob: can't parse " ++ name ++ ": " ++ quoteStd s ++ " is out of range"
  | .missingParam name =>
    "multijob: param does not exist: " ++ quoteStd name
  | .notBoolean name s =>
    "multijob: param " ++ quoteStd name ++ " is not boolean: " ++ quoteStd s
  | .unconsumed keys =>
    "multijob: params were not consumed: " ++ joinedAndQuoted keys

/-! ## `conversion.cpp` -/

/-- `convert_str_to_i` from `conversion.cpp`: `std::stoi(s, &pos, 0)`
wrapped by `convert("an integer number", …)` — `std::invalid_argument`
and unconsumed trailing characters become "is not an integer number",
`std::out_of_range` becomes "is out of range". -/
def convert_str_to_i (name s : String) : Except MultijobError Int :=
  match stoiMdl 0 s with
  | .error .invalidArg => .error (.cantParse name s "an integer number")
  | .error .outOfRange => .error (.outOfRangeParse name s)
  | .ok vp =>
    if vp.2 = s.data.length then .ok vp.1
    else .error (.cantParse name s "an integer number")

/-- `convert_str_to_ul` from `conversion.cpp`: `std::stoul(s, &pos, 0)`
wrapped by `convert("an unsigned integer number", …)`. -/
def convert_str_to_ul (name s : String) : Except MultijobError Nat :=
  match stoulMdl 0 s with
  | .error .invalidArg => .error (.cantParse name s "an unsigned integer number")
  | .error .outOfRange => .error (.outOfRangeParse name s)
  | .ok vp =>
    if vp.2 = s.data.length then .ok vp.1
    else .error (.cantParse name s "an unsigned integer number")

/-- `convert_str_to_ld` from `conversion.cpp`: `std::stod(s, &pos)` wrapped
by `convert("a floating point number", …)`.  Only the success/failure and
consumed-length behaviour is modelled (the binary64 value, and `stod`'s
magnitude-dependent `out_of_range`, are not; no claim depends on them). -/
def convert_str_to_ld (name s : String) : Except MultijobError Unit :=
  let n := strtodConsumed s.data
  if n = 0 then .error (.cantParse name s "a floating point number")
  else if n = s.data.length then .ok ()
  else .error (.cantParse name s "a floating point number")

/-! ## String-to-string maps (`std::unordered_map<std::string, std::string>`)

Association lists with unique keys; `mapInsert` is insert-or-assign
(`m[key] = value`), `mapFind` is `find`, `mapErase` is `erase`. -/

/-- `MapStrStr` from `multijob.cpp`. -/
abbrev MapStrStr := List (String × String)

/-- `m[k] = v`: overwrite the existing binding of `k`, else append. -/
def mapInsert (m : MapStrStr) (k v : String) : MapStrStr :=
  if m.any (fun p => p.1 == k) then
    m.map (fun p => if p.1 == k then (k, v) else p)
  else m ++ [(k, v)]

/-- `m.find(k)`, as the bound value if any. -/
def mapFind (m : MapStrStr) (k : String) : Option String :=
  (m.find? (fun p => p.1 == k)).map (·.2)

/-- `m.erase(k)` (erasing the iterator found for `k`). -/
def mapErase (m : MapStrStr) (k : String) : MapStrStr :=
  m.filter (fun p => p.1 != k)

/-- The keys of the map, in representation order. -/
def mapKeys (m : MapStrStr) : List String :=
  m.map (·.1)

/-- Lexicographic comparison of character sequences by code point, the
order of `std::string::operator<` (bytewise comparison agrees with
code-point order for valid UTF-8). -/
def strLeB : List Char → List Char → Bool
  | [], _ => true
  | _ :: _, [] => false
  | a :: as, b :: bs =>
    if a.toNat < b.toNat then true
    else if b.toNat < a.toNat then false
    else strLeB as bs

/-- The `std::string` order as a relation on strings. -/
abbrev strLe (a b : String) : Prop := strLeB a.data b.data = true

/-- `std::sort` on a vector of keys (strings ordered lexicographically);
any comparison sort yields this same list because the keys are distinct. -/
def sortStrings (l : List String) : List String :=
  List.insertionSort strLe l

/-! ## `multijob.cpp`: tokenizing -/

/-- `split_arg` from `multijob.cpp`: split at the first `=`
(`arg.find('=')`); no `=` at all throws "can't split as argument". -/
def split_arg (arg : String) : Except MultijobError (String × String) :=
  let pre := arg.data.takeWhile (fun c => c != '=')
  if pre.length = arg.data.length then .error (.malformedArg arg)
  else .ok (⟨pre⟩, ⟨arg.data.drop (pre.length + 1)⟩)

/-- The second loop of `separate_argv`: every remaining token is split and
inserted into the normal-argument map. -/
def sepNormal (tokens : List String) (acc : MapStrStr) : Except MultijobError MapStrStr :=
  match tokens with
  | [] => .ok acc
  | t :: rest =>
    match split_arg t with
    | .error e => .error e
    | .ok kv => sepNormal rest (mapInsert acc kv.1 kv.2)

/-- The first loop of `separate_argv`: tokens before the first `sep` token
are split into the special-argument map; on reaching `sep` the remaining
tokens feed the normal-argument map. -/
def sepSpecial (sep : String) (tokens : List String) (acc : MapStrStr) :
    Except MultijobError (MapStrStr × MapStrStr) :=
  match tokens with
  | [] => .ok (acc, [])
  | t :: rest =>
    if t = sep then
      match sepNormal rest [] with
      | .error e => .error e
      | .ok nm => .ok (acc, nm)
    else
      match split_arg t with
      | .error e => .error e
      | .ok kv => sepSpecial sep rest (mapInsert acc kv.1 kv.2)

/-- `separate_argv` from `multijob.cpp`. -/
def separate_argv (tokens : List String) (sep : String) :
    Except MultijobError (MapStrStr × MapStrStr) :=
  sepSpecial sep tokens []

/-! ## `Args` (`Args.h` / `Args.cpp`) -/

/-- `JobArgvConfig` from `multijob.h` (defaults `--id` / `--rep`). -/
structure JobArgvConfig where
  job_id_key : String := "--id"
  repetition_id_key : String := "--rep"
deriving DecidableEq, Repr

/-- The `JobArgvConfig` default constructor. -/
def JobArgvConfig.mkDefault : JobArgvConfig := {}

/-- Conversion to `ID = std::uint32_t` (truncation of `unsigned long`). -/
def idOfUL (n : Nat) : Nat := n % 2 ^ 32

/-- `Args` from `Args.h`: the two IDs and the remaining-parameter map. -/
structure Args where
  m_job_id : Nat
  m_repetition_id : Nat
  m_args : MapStrStr
deriving DecidableEq, Repr

/-- `Args::job_id()`. -/
def Args.job_id (a : Args) : Nat := a.m_job_id

/-- `Args::repetition_id()`. -/
def Args.repetition_id (a : Args) : Nat := a.m_repetition_id

/-- `Args::get_s`: look the name up; if absent throw "param does not
exist" (the `Args` is unchanged), else erase the binding and return its
value together with the mutated `Args`. -/
def Args.get_s (a : Args) (name : String) : Except MultijobError String × Args :=
  match mapFind a.m_args name with
  | none => (.error (.missingParam name), a)
  | some v => (.ok v, { a with m_args := mapErase a.m_args name })

/-- `Args::get_i`: `get_s` (which already erases the binding) followed by
`convert_str_to_i`. -/
def Args.get_i (a : Args) (name : String) : Except MultijobError Int × Args :=
  match a.get_s name with
  | (.error e, a2) => (.error e, a2)
  | (.ok s, a2) => (convert_str_to_i name s, a2)

/-- `Args::get_d`: `get_s` followed by `convert_str_to_ld`. -/
def Args.get_d (a : Args) (name : String) : Except MultijobError Unit × Args :=
  match a.get_s name with
  | (.error e, a2) => (.error e, a2)
  | (.ok s, a2) => (convert_str_to_ld name s, a2)

/-- `Args::get_b`: `get_s`, then exactly `"True"`/`"true"` map to `true`,
`"False"`/`"false"` to `false`, anything else throws "is not boolean". -/
def Args.get_b (a : Args) (name : String) : Except MultijobError Bool × Args :=
  match a.get_s name with
  | (.error e, a2) => (.error e, a2)
  | (.ok s, a2) =>
    if s = "True" ∨ s = "true" then (.ok true, a2)
    else if s = "False" ∨ s = "false" then (.ok false, a2)
    else (.error (.notBoolean name s), a2)

/-- `Args::no_further_arguments` (a `const` method): return normally when
the remaining map is empty, else throw "params were not consumed" listing
the sorted keys. -/
def Args.no_further_arguments (a : Args) : Except MultijobError Unit :=
  if a.m_args.isEmpty then .ok ()
  else .error (.unconsumed (sortStrings (mapKeys a.m_args)))

/-! ## `parse_commandline` (`multijob.cpp`) -/

/-- The body of `parse_commandline` after the `--argc; ++argv;` skip of
the program name: `separate_argv` with separator `"--"`, extraction and
removal of the two special keys, rejection of leftover special keys
(sorted for the message), then ID conversion via `convert_str_to_ul` and
truncation to `ID = std::uint32_t`. -/
def parse_argv (tokens : List String) (config : JobArgvConfig) :
    Except MultijobError Args :=
  match separate_argv tokens "--" with
  | .error e => .error e
  | .ok sn =>
    match mapFind sn.1 config.job_id_key with
    | none => .error (.missingSpecial "job_id" config.job_id_key)
    | some job_id_str =>
      match mapFind (mapErase sn.1 config.job_id_key) config.repetition_id_key with
      | none => .error (.missingSpecial "repetition_id" config.repetition_id_key)
      | some repetition_id_str =>
        let sp2 := mapErase (mapErase sn.1 config.job_id_key) config.repetition_id_key
        if sp2.isEmpty then
          match convert_str_to_ul "job_id" job_id_str with
          | .error e => .error e
          | .ok j =>
            match convert_str_to_ul "repetition_id" repetition_id_str with
            | .error e => .error e
            | .ok r => .ok ⟨idOfUL j, idOfUL r, sn.2⟩
        else .error (.unknownSpecial (sortStrings (mapKeys sp2)))

/-- `parse_commandline` from `multijob.cpp`: the argument vector is the
list `argv[0], …, argv[argc-1]`; the function first skips `argv[0]` (the
executable name) and then runs `parse_argv` on the remaining tokens. -/
def parse_commandline (argv : List String) (config : JobArgvConfig) :
    Except MultijobError Args :=
  parse_argv argv.tail config

/-! ## Specification-side vocabulary

Definitions used only to *state* claims about the code: canonical decimal
numerals and their value, and the tokens belonging to the special/normal
regions of a token sequence. -/

/-- A canonical non-negative base-10 numeral: a non-empty string of
decimal digits with no leading zero (except the single numeral `"0"`). -/
def isCanonDecimal (s : String) : Bool :=
  match s.data with
  | [] => false
  | c :: rest => decDigitB c && rest.all decDigitB && (c != '0' || rest.isEmpty)

/-- The base-10 value denoted by a string of decimal digits. -/
def decVal (s : String) : Nat :=
  s.data.foldl (fun n c => n * 10 + (c.toNat - 48)) 0

/-- The tokens of the special region (before the first `"--"`) together
with those of the normal region (after it); the first `"--"` token itself
belongs to neither. -/
def regionTokens (tokens : List String) : List String :=
  tokens.takeWhile (· != "--") ++ (tokens.dropWhile (· != "--")).tail

/-! ## Helper lemmas -/

theorem strLeB_total : ∀ (a b : List Char), strLeB a b = true ∨ strLeB b a = true
  | [], _ => Or.inl rfl
  | _ :: _, [] => Or.inr rfl
  | a :: as, b :: bs => by
    simp only [strLeB]
    rcases Nat.lt_trichotomy a.toNat b.toNat with h | h | h
    · left
      rw [if_pos h]
    · rw [if_neg (by omega), if_neg (by omega), if_neg (by omega), if_neg (by omega)]
      exact strLeB_total as bs
    · right
      rw [if_pos h]

theorem strLeB_trans : ∀ (a b c : List Char),
    strLeB a b = true → strLeB b c = true → strLeB a c = true
  | [], _, _, _, _ => rfl
  | _ :: _, [], _, h1, _ => by simp [strLeB] at h1
  | _ :: _, _ :: _, [], _, h2 => by simp [strLeB] at h2
  | a :: as, b :: bs, c :: cs, h1, h2 => by
    simp only [strLeB] at h1 h2 ⊢
    by_cases hba : b.toNat < a.toNat
    · rw [if_neg (by omega), if_pos hba] at h1
      exact absurd h1 (by simp)
    · by_cases hcb : c.toNat < b.toNat
      · rw [if_neg (by omega), if_pos hcb] at h2
        exact absurd h2 (by simp)
      · by_cases hac : a.toNat < c.toNat
        · rw [if_pos hac]
        · rw [if_neg hac, if_neg (by omega)]
          rw [if_neg (by omega), if_neg (by omega)] at h1
          rw [if_neg (by omega), if_neg (by omega)] at h2
          exact strLeB_trans as bs cs h1 h2

theorem sortStrings_sorted (l : List String) : List.Sorted strLe (sortStrings l) :=
  @List.sorted_insertionSort String strLe _
    ⟨fun a b => strLeB_total a.data b.data⟩
    ⟨fun a b c => strLeB_trans a.data b.data c.data⟩ l

theorem decDigitB_iff (c : Char) : decDigitB c = true ↔ 48 ≤ c.toNat ∧ c.toNat ≤ 57 := by
  unfold decDigitB digitValueIn
  split_ifs with h1 h2 h3 h4 h5 h6 <;> simp <;> omega

theorem digitValueIn_ten_of_decDigit (c : Char) (h : decDigitB c = true) :
    digitValueIn 10 c = some (c.toNat - 48) := by
  rw [decDigitB_iff] at h
  unfold digitValueIn
  rw [if_pos h, if_pos (by omega)]

theorem decDigit_not_space (c : Char) (h : decDigitB c = true) : isSpaceChar c = false := by
  rw [decDigitB_iff] at h
  unfold isSpaceChar
  simp only [Bool.or_eq_false_iff, decide_eq_false_iff_not]
  refine ⟨⟨⟨⟨⟨?_, ?_⟩, ?_⟩, ?_⟩, ?_⟩, ?_⟩ <;> (rintro rfl; exact absurd h (by decide))

theorem decDigit_not_sign (c : Char) (h : decDigitB c = true) : c ≠ '-' ∧ c ≠ '+' := by
  rw [decDigitB_iff] at h
  constructor <;> (rintro rfl; exact absurd h (by decide))

theorem takeWhile_eq_self_of_all {α} {p : α → Bool} {l : List α} (h : l.all p = true) :
    l.takeWhile p = l := by
  induction l with
  | nil => rfl
  | cons a r ih => simp_all [List.takeWhile_cons]

theorem takeWhile_length_eq_iff_all {α} {p : α → Bool} {l : List α} :
    (l.takeWhile p).length = l.length ↔ l.all p = true := by
  induction l with
  | nil => simp
  | cons a r ih =>
    by_cases h : p a
    · simp [List.takeWhile_cons, h, ih]
    · simp only [List.takeWhile_cons, h, Bool.false_eq_true, if_false, List.length_nil,
        List.length_cons, List.all_cons, Bool.false_and]
      constructor
      · omega
      · simp

theorem foldl_dec_digits (l : List Char) (h : l.all decDigitB = true) (n : Nat) :
    l.foldl (fun m c => m * 10 + (digitValueIn 10 c).getD 0) n
      = l.foldl (fun m c => m * 10 + (c.toNat - 48)) n := by
  induction l generalizing n with
  | nil => rfl
  | cons c r ih =>
    simp only [List.all_cons, Bool.and_eq_true] at h
    simp only [List.foldl_cons]
    rw [digitValueIn_ten_of_decDigit c h.1]
    exact ih h.2 _

theorem detectBase_ten_of_head_ne (c : Char) (rest : List Char) (h : c ≠ '0') :
    detectBase 0 (c :: rest) = (10, 0, c :: rest) := by
  cases rest with
  | nil => simp [detectBase, h]
  | cons d r2 => simp [detectBase, h]

theorem dropWhile_cons_of_neg {α} {p : α → Bool} {a : α} {l : List α} (h : p a = false) :
    (a :: l).dropWhile p = a :: l := by
  simp [List.dropWhile_cons, h]

theorem splitSign_of_not_sign {c : Char} {r : List Char} (h1 : c ≠ '-') (h2 : c ≠ '+') :
    splitSign (c :: r) = (false, 0, c :: r) := by
  simp [splitSign, h1, h2]

theorem isCanonDecimal_elim {s : String} (h : isCanonDecimal s = true) :
    ∃ c rest, s.data = c :: rest ∧ decDigitB c = true ∧ rest.all decDigitB = true ∧
      (c = '0' → rest = []) := by
  obtain ⟨l⟩ := s
  unfold isCanonDecimal at h
  cases l with
  | nil => exact absurd h (by simp)
  | cons c rest =>
    simp only [Bool.and_eq_true, Bool.or_eq_true, bne_iff_ne, ne_eq,
      List.isEmpty_iff, decide_eq_true_eq] at h
    exact ⟨c, rest, rfl, h.1.1, h.1.2, fun hc => by
      rcases h.2 with h2 | h2
      · exact absurd hc h2
      · exact h2⟩

theorem strtoParse_canon (c : Char) (rest : List Char)
    (hc : decDigitB c = true) (hrest : rest.all decDigitB = true)
    (hz : c = '0' → rest = []) :
    strtoParse 0 (c :: rest) =
      { neg := false,
        mag := (c :: rest).foldl (fun n ch => n * 10 + (ch.toNat - 48)) 0,
        consumed := rest.length + 1 } := by
  by_cases hc0 : c = '0'
  · subst hc0
    rw [hz rfl]
    rfl
  · have hall : (c :: rest).all decDigitB = true := by simp [hc, hrest]
    have hsp := decDigit_not_space c hc
    have hsg := decDigit_not_sign c hc
    unfold strtoParse
    rw [dropWhile_cons_of_neg hsp]
    dsimp only
    rw [splitSign_of_not_sign hsg.1 hsg.2]
    dsimp only
    rw [detectBase_ten_of_head_ne c rest hc0]
    dsimp only
    rw [takeWhile_eq_self_of_all (p := fun ch => (digitValueIn 10 ch).isSome) hall]
    rw [foldl_dec_digits _ hall]
    simp [List.length_cons]

theorem convert_ul_canon (name s : String) (h : isCanonDecimal s = true)
    (hlt : decVal s < 2 ^ 64) :
    convert_str_to_ul name s = .ok (decVal s) := by
  obtain ⟨c, rest, hs, hc, hrest, hz⟩ := isCanonDecimal_elim h
  have hdv : decVal s = (c :: rest).foldl (fun n ch => n * 10 + (ch.toNat - 48)) 0 := by
    unfold decVal; rw [hs]
  have hlen : s.data.length = rest.length + 1 := by rw [hs]; simp
  rw [hdv] at hlt
  have hstoul : stoulMdl 0 s = .ok (decVal s, rest.length + 1) := by
    unfold stoulMdl
    rw [hs, strtoParse_canon c rest hc hrest hz]
    dsimp only
    rw [if_neg (by omega), if_neg (by unfold ulongMod; omega)]
    rw [hdv]
    simp
  unfold convert_str_to_ul
  rw [hstoul]
  dsimp only
  rw [if_pos (by omega)]

theorem convert_str_to_ul_error_shape {name s : String} {e : MultijobError}
    (h : convert_str_to_ul name s = .error e) :
    e = .cantParse name s "an unsigned integer number" ∨ e = .outOfRangeParse name s := by
  unfold convert_str_to_ul at h
  rcases h2 : stoulMdl 0 s with e2 | vp
  · rw [h2] at h
    cases e2 <;> simp_all
  · rw [h2] at h
    dsimp only at h
    split_ifs at h
    simp_all

theorem mapFind_erase_self (m : MapStrStr) (k : String) :
    mapFind (mapErase m k) k = none := by
  induction m with
  | nil => rfl
  | cons p r ih =>
    unfold mapErase mapFind at ih ⊢
    rw [List.filter_cons]
    by_cases h : p.1 = k
    · rw [if_neg (by simp [h])]
      exact ih
    · rw [if_pos (by simp [h])]
      rw [List.find?_cons_of_neg _ (by simp [h])]
      exact ih

theorem not_mem_mapKeys_erase (m : MapStrStr) (k : String) :
    k ∉ mapKeys (mapErase m k) := by
  intro hmem
  unfold mapKeys mapErase at hmem
  simp only [List.mem_map, List.mem_filter, bne_iff_ne, ne_eq] at hmem
  obtain ⟨p, ⟨_, hne⟩, hpk⟩ := hmem
  exact hne hpk

theorem parse_argv_conv (tokens : List String) (cfg : JobArgvConfig)
    (sp nm : MapStrStr) (js rs : String)
    (hsep : separate_argv tokens "--" = .ok (sp, nm))
    (hj : mapFind sp cfg.job_id_key = some js)
    (hr : mapFind (mapErase sp cfg.job_id_key) cfg.repetition_id_key = some rs)
    (hrest : (mapErase (mapErase sp cfg.job_id_key) cfg.repetition_id_key).isEmpty = true) :
    parse_argv tokens cfg =
      match convert_str_to_ul "job_id" js with
      | .error e => .error e
      | .ok j =>
        match convert_str_to_ul "repetition_id" rs with
        | .error e => .error e
        | .ok r => .ok ⟨idOfUL j, idOfUL r, nm⟩ := by
  unfold parse_argv
  rw [hsep]
  dsimp only
  rw [hj]
  dsimp only
  rw [hr]
  dsimp only
  rw [hrest]
  rw [if_pos rfl]

/-! ## Claim theorems -/

/-- C1: for the token sequence `["--id=4", "--rep=7", "--", "a=b"]` after
the program name, `parse_commandline` succeeds with `job_id() = 4` and
`repetition_id() = 7`; `get_s "a"` on the resulting `Args` returns `"b"`,
and a subsequent `get_s "nonexistent"` fails with the missing-parameter
error. -/
theorem parse_commandline_concrete_scenario :
    parse_commandline ["self", "--id=4", "--rep=7", "--", "a=b"] JobArgvConfig.mkDefault
        = .ok ⟨4, 7, [("a", "b")]⟩ ∧
    (Args.mk 4 7 [("a", "b")]).job_id = 4 ∧
    (Args.mk 4 7 [("a", "b")]).repetition_id = 7 ∧
    (Args.mk 4 7 [("a", "b")]).get_s "a" = (.ok "b", Args.mk 4 7 []) ∧
    (Args.mk 4 7 []).get_s "nonexistent"
        = (.error (.missingParam "nonexistent"), Args.mk 4 7 []) :=
  ⟨rfl, rfl, rfl, rfl, rfl⟩

/-- C2 counterexample: contrary to the claim, a negative ID string such as
`"-5"` does not fail with an invalid-id error: `std::stoul` with base 0
accepts the sign and wraps modulo `2 ^ 64`, and the truncation to
`std::uint32_t` yields `4294967291`.  Likewise `"010"` (a base-10 numeral
denoting ten) is parsed as octal to `8`, and `"4294967296"` is truncated
to `0`. -/
theorem id_parsing_counterexample :
    parse_commandline ["self", "--id=-5", "--rep=7", "--"] JobArgvConfig.mkDefault
        = .ok ⟨4294967291, 7, []⟩ ∧
    parse_commandline ["self", "--id=010", "--rep=7", "--"] JobArgvConfig.mkDefault
        = .ok ⟨8, 7, []⟩ ∧
    parse_commandline ["self", "--id=4294967296", "--rep=7", "--"] JobArgvConfig.mkDefault
        = .ok ⟨0, 7, []⟩ :=
  ⟨rfl, rfl, rfl⟩

/-- C2 (amended): for every token sequence whose special region contains
the job-id and repetition-id keys and nothing else, `parse_commandline`
fails with the invalid-id error (for the ID whose conversion fails:
`cantParse` for non-numeric input or trailing characters,
`outOfRangeParse` for magnitudes beyond `unsigned long`) exactly when
`convert_str_to_ul` rejects an ID string; and when both ID strings are
canonical non-negative base-10 numerals (no leading zero) with values
below `2 ^ 32`, it returns those two values as `job_id` and
`repetition_id`. -/
theorem parse_commandline_id_conversion (tokens : List String) (cfg : JobArgvConfig)
    (sp nm : MapStrStr) (js rs : String)
    (hsep : separate_argv tokens "--" = .ok (sp, nm))
    (hj : mapFind sp cfg.job_id_key = some js)
    (hr : mapFind (mapErase sp cfg.job_id_key) cfg.repetition_id_key = some rs)
    (hrest : (mapErase (mapErase sp cfg.job_id_key) cfg.repetition_id_key).isEmpty = true) :
    (∀ e, convert_str_to_ul "job_id" js = .error e →
        parse_argv tokens cfg = .error e ∧
        (e = .cantParse "job_id" js "an unsigned integer number" ∨
         e = .outOfRangeParse "job_id" js)) ∧
    (∀ j e, convert_str_to_ul "job_id" js = .ok j →
        convert_str_to_ul "repetition_id" rs = .error e →
        parse_argv tokens cfg = .error e ∧
        (e = .cantParse "repetition_id" rs "an unsigned integer number" ∨
         e = .outOfRangeParse "repetition_id" rs)) ∧
    (isCanonDecimal js = true → isCanonDecimal rs = true →
        decVal js < 2 ^ 32 → decVal rs < 2 ^ 32 →
        parse_argv tokens cfg = .ok ⟨decVal js, decVal rs, nm⟩) := by
  have key := parse_argv_conv tokens cfg sp nm js rs hsep hj hr hrest
  refine ⟨?_, ?_, ?_⟩
  · intro e he
    rw [key, he]
    exact ⟨rfl, convert_str_to_ul_error_shape he⟩
  · intro j e hok he
    rw [key, hok]
    dsimp only
    rw [he]
    exact ⟨rfl, convert_str_to_ul_error_shape he⟩
  · intro h1 h2 h3 h4
    rw [key, convert_ul_canon _ _ h1 (lt_trans h3 (by norm_num)),
      convert_ul_canon _ _ h2 (lt_trans h4 (by norm_num))]
    dsimp only
    unfold idOfUL
    rw [Nat.mod_eq_of_lt h3, Nat.mod_eq_of_lt h4]

/-- Witness for C2 (amended) at the concrete input
`["--id=4", "--rep=7", "--"]`. -/
theorem parse_commandline_id_conversion_witness :
    parse_argv ["--id=4", "--rep=7", "--"] JobArgvConfig.mkDefault = .ok ⟨4, 7, []⟩ :=
  (parse_commandline_id_conversion ["--id=4", "--rep=7", "--"] JobArgvConfig.mkDefault
      [("--id", "4"), ("--rep", "7")] [] "4" "7" rfl rfl rfl rfl).2.2
    rfl rfl (by decide) (by decide)

/-- C3: for every parameter bound in the remaining map, `get_i` removes
the name from the map and parses the full value string as an integer:
success requires `std::stoi` to consume the whole string; unconsumed
trailing characters and non-parseable strings fail with the `cantParse`
coercion error (naming the parameter, the offending string and the
expected type), `int` overflow fails with the distinct `outOfRangeParse`
coercion error. -/
theorem get_i_coercion_spec (a : Args) (name s : String)
    (h : mapFind a.m_args name = some s) :
    (a.get_i name).2.m_args = mapErase a.m_args name ∧
    (∀ v, stoiMdl 0 s = .ok (v, s.data.length) → (a.get_i name).1 = .ok v) ∧
    (∀ v pos, stoiMdl 0 s = .ok (v, pos) → pos ≠ s.data.length →
        (a.get_i name).1 = .error (.cantParse name s "an integer number")) ∧
    (stoiMdl 0 s = .error .invalidArg →
        (a.get_i name).1 = .error (.cantParse name s "an integer number")) ∧
    (stoiMdl 0 s = .error .outOfRange →
        (a.get_i name).1 = .error (.outOfRangeParse name s)) ∧
    MultijobError.cantParse name s "an integer number" ≠ .outOfRangeParse name s := by
  have hgs : a.get_s name = (.ok s, { a with m_args := mapErase a.m_args name }) := by
    unfold Args.get_s
    rw [h]
  have hgi : a.get_i name
      = (convert_str_to_i name s, { a with m_args := mapErase a.m_args name }) := by
    unfold Args.get_i
    rw [hgs]
  rw [hgi]
  refine ⟨rfl, ?_, ?_, ?_, ?_, by simp⟩
  · intro v hv
    dsimp only
    unfold convert_str_to_i
    rw [hv]
    dsimp only
    rw [if_pos rfl]
  · intro v pos hv hne
    dsimp only
    unfold convert_str_to_i
    rw [hv]
    dsimp only
    rw [if_neg hne]
  · intro hv
    dsimp only
    unfold convert_str_to_i
    rw [hv]
  · intro hv
    dsimp only
    unfold convert_str_to_i
    rw [hv]

/-- Witness for C3 at the concrete input `"4.2"` (trailing characters:
`std::stoi` stops at position 1 of a 3-character string). -/
theorem get_i_coercion_spec_witness :
    ((Args.mk 4 5 [("a", "4.2")]).get_i "a").1
        = .error (.cantParse "a" "4.2" "an integer number") ∧
    ((Args.mk 4 5 [("a", "4.2")]).get_i "a").2.m_args = [] := by
  have h := get_i_coercion_spec (Args.mk 4 5 [("a", "4.2")]) "a" "4.2" rfl
  exact ⟨h.2.2.1 4 1 rfl (by decide), h.1⟩

/-- C6: for every parameter bound in the remaining map, `get_b` returns
`true` exactly for the value strings `"True"`/`"true"`, `false` exactly
for `"False"`/`"false"`, and fails with the boolean coercion error for
every other string; the binding is removed in all cases. -/
theorem get_b_boolean_spec (a : Args) (name s : String)
    (h : mapFind a.m_args name = some s) :
    ((a.get_b name).1 = .ok true ↔ (s = "True" ∨ s = "true")) ∧
    ((a.get_b name).1 = .ok false ↔ (s = "False" ∨ s = "false")) ∧
    (¬(s = "True" ∨ s = "true" ∨ s = "False" ∨ s = "false") →
        (a.get_b name).1 = .error (.notBoolean name s)) ∧
    (a.get_b name).2.m_args = mapErase a.m_args name := by
  have hgs : a.get_s name = (.ok s, { a with m_args := mapErase a.m_args name }) := by
    unfold Args.get_s
    rw [h]
  by_cases h1 : s = "True" ∨ s = "true"
  · have hgb : a.get_b name = (.ok true, { a with m_args := mapErase a.m_args name }) := by
      unfold Args.get_b
      rw [hgs]
      dsimp only
      rw [if_pos h1]
    rw [hgb]
    refine ⟨by simp [h1], ?_, fun hcon => absurd (by tauto) hcon, rfl⟩
    rcases h1 with rfl | rfl
    · simp
    · simp
  · by_cases h2 : s = "False" ∨ s = "false"
    · have hgb : a.get_b name = (.ok false, { a with m_args := mapErase a.m_args name }) := by
        unfold Args.get_b
        rw [hgs]
        dsimp only
        rw [if_neg h1, if_pos h2]
      rw [hgb]
      refine ⟨?_, by simp [h2], fun hcon => absurd (by tauto) hcon, rfl⟩
      rcases h2 with rfl | rfl
      · simp
      · simp
    · have hgb : a.get_b name
          = (.error (.notBoolean name s), { a with m_args := mapErase a.m_args name }) := by
        unfold Args.get_b
        rw [hgs]
        dsimp only
        rw [if_neg h1, if_neg h2]
      rw [hgb]
      exact ⟨by simp [h1], by simp [h2], fun _ => rfl, rfl⟩

/-- Witness for C6 at the concrete value strings `"true"` and `"T"`. -/
theorem get_b_boolean_spec_witness :
    ((Args.mk 4 6 [("a", "true")]).get_b "a").1 = .ok true ∧
    ((Args.mk 4 5 [("a", "T")]).get_b "a").1 = .error (.notBoolean "a" "T") := by
  have h1 := get_b_boolean_spec (Args.mk 4 6 [("a", "true")]) "a" "true" rfl
  have h2 := get_b_boolean_spec (Args.mk 4 5 [("a", "T")]) "a" "T" rfl
  exact ⟨h1.1.mpr (Or.inr rfl), h2.2.2.1 (by decide)⟩

/-- C7: `no_further_arguments` (a `const` method, so the `Args` is
unchanged) returns normally exactly when the remaining map is empty;
otherwise it fails with the unconsumed-arguments error whose key list is
the sorted permutation of the remaining keys and whose message quotes
and comma-joins them. -/
theorem no_further_arguments_spec (a : Args) :
    (a.no_further_arguments = .ok () ↔ a.m_args = []) ∧
    (a.m_args ≠ [] →
        a.no_further_arguments = .error (.unconsumed (sortStrings (mapKeys a.m_args))) ∧
        List.Sorted strLe (sortStrings (mapKeys a.m_args)) ∧
        (sortStrings (mapKeys a.m_args)).Perm (mapKeys a.m_args) ∧
        renderError (.unconsumed (sortStrings (mapKeys a.m_args))) =
          "multijob: params were not consumed: " ++
            joinedAndQuoted (sortStrings (mapKeys a.m_args))) := by
  constructor
  · unfold Args.no_further_arguments
    by_cases h : a.m_args.isEmpty
    · rw [if_pos h]
      rw [List.isEmpty_iff] at h
      simp [h]
    · rw [if_neg h]
      rw [List.isEmpty_iff] at h
      simp [h]
  · intro h
    have hne : a.m_args.isEmpty = false := by
      rw [List.isEmpty_eq_false_iff_exists_mem]
      cases hm : a.m_args with
      | nil => exact absurd hm h
      | cons p r => exact ⟨p, by simp⟩
    refine ⟨?_, sortStrings_sorted _, List.perm_insertionSort _ _, rfl⟩
    unfold Args.no_further_arguments
    rw [hne]
    rfl

/-- Witness for C7 at a two-key remaining map and at the empty map. -/
theorem no_further_arguments_spec_witness :
    (Args.mk 57 3 [("z", "y"), ("a", "b")]).no_further_arguments
        = .error (.unconsumed ["a", "z"]) ∧
    (Args.mk 4 7 []).no_further_arguments = .ok () := by
  have h := no_further_arguments_spec (Args.mk 57 3 [("z", "y"), ("a", "b")])
  have h2 := no_further_arguments_spec (Args.mk 4 7 [])
  exact ⟨(h.2 (by decide)).1, h2.1.mpr rfl⟩

/-- C9: extraction is not atomic on coercion failure — for every bound
parameter, `get_i`, `get_d` and `get_b` remove the binding whatever their
outcome (so also when they fail), the name no longer resolves in the
resulting map, and a subsequent `no_further_arguments` never reports it. -/
theorem failed_coercion_still_consumes (a : Args) (name s : String)
    (h : mapFind a.m_args name = some s) :
    ((a.get_i name).2.m_args = mapErase a.m_args name ∧
     (a.get_d name).2.m_args = mapErase a.m_args name ∧
     (a.get_b name).2.m_args = mapErase a.m_args name) ∧
    mapFind (a.get_i name).2.m_args name = none ∧
    (∀ ks, (a.get_i name).2.no_further_arguments = .error (.unconsumed ks) →
        name ∉ ks) := by
  have hgs : a.get_s name = (.ok s, { a with m_args := mapErase a.m_args name }) := by
    unfold Args.get_s
    rw [h]
  have hi : (a.get_i name).2.m_args = mapErase a.m_args name := by
    unfold Args.get_i
    rw [hgs]
  have hd : (a.get_d name).2.m_args = mapErase a.m_args name := by
    unfold Args.get_d
    rw [hgs]
  have hb : (a.get_b name).2.m_args = mapErase a.m_args name := by
    unfold Args.get_b
    rw [hgs]
    dsimp only
    split_ifs <;> rfl
  refine ⟨⟨hi, hd, hb⟩, ?_, ?_⟩
  · rw [hi]
    exact mapFind_erase_self _ _
  · intro ks hks
    unfold Args.no_further_arguments at hks
    rw [hi] at hks
    split_ifs at hks
    have hks2 : sortStrings (mapKeys (mapErase a.m_args name)) = ks := by
      injection hks with hks
      injection hks
    rw [← hks2]
    intro hmem
    exact not_mem_mapKeys_erase a.m_args name
      ((List.perm_insertionSort _ _).mem_iff.mp hmem)

/-- Witness for C9: `get_i` fails on `"x"` yet the binding is gone and the
later `no_further_arguments` reports only the other key. -/
theorem failed_coercion_still_consumes_witness :
    ((Args.mk 4 5 [("a", "x"), ("b", "1")]).get_i "a").1
        = .error (.cantParse "a" "x" "an integer number") ∧
    ((Args.mk 4 5 [("a", "x"), ("b", "1")]).get_i "a").2.m_args = [("b", "1")] ∧
    mapFind ((Args.mk 4 5 [("a", "x"), ("b", "1")]).get_i "a").2.m_args "a" = none ∧
    ¬ "a" ∈ ["b"] := by
  have h := failed_coercion_still_consumes (Args.mk 4 5 [("a", "x"), ("b", "1")]) "a" "x" rfl
  exact ⟨rfl, h.1.1, h.2.1, h.2.2 ["b"] rfl⟩

/-- C4: once `separate_argv` succeeds, `parse_commandline` fails with the
missing-special-argument error when the job-id key (or, that key found,
the repetition-id key) is absent from the special map; and when further
special keys remain after removing those two, it fails with the
unknown-special-argument error reporting the sorted, quoted,
comma-joined offending keys. -/
theorem special_key_errors_spec (tokens : List String) (cfg : JobArgvConfig)
    (sp nm : MapStrStr)
    (hsep : separate_argv tokens "--" = .ok (sp, nm)) :
    (mapFind sp cfg.job_id_key = none →
        parse_argv tokens cfg = .error (.missingSpecial "job_id" cfg.job_id_key)) ∧
    (∀ js, mapFind sp cfg.job_id_key = some js →
        mapFind (mapErase sp cfg.job_id_key) cfg.repetition_id_key = none →
        parse_argv tokens cfg
          = .error (.missingSpecial "repetition_id" cfg.repetition_id_key)) ∧
    (∀ js rs, mapFind sp cfg.job_id_key = some js →
        mapFind (mapErase sp cfg.job_id_key) cfg.repetition_id_key = some rs →
        mapErase (mapErase sp cfg.job_id_key) cfg.repetition_id_key ≠ [] →
        parse_argv tokens cfg = .error (.unknownSpecial (sortStrings (mapKeys
            (mapErase (mapErase sp cfg.job_id_key) cfg.repetition_id_key)))) ∧
        List.Sorted strLe (sortStrings (mapKeys
            (mapErase (mapErase sp cfg.job_id_key) cfg.repetition_id_key))) ∧
        (sortStrings (mapKeys
            (mapErase (mapErase sp cfg.job_id_key) cfg.repetition_id_key))).Perm
          (mapKeys (mapErase (mapErase sp cfg.job_id_key) cfg.repetition_id_key)) ∧
        renderError (.unknownSpecial (sortStrings (mapKeys
            (mapErase (mapErase sp cfg.job_id_key) cfg.repetition_id_key)))) =
          "multijob: unknown special arguments before " ++ quoteStd "--" ++
            " separator: " ++ joinedAndQuoted (sortStrings (mapKeys
              (mapErase (mapErase sp cfg.job_id_key) cfg.repetition_id_key)))) := by
  refine ⟨?_, ?_, ?_⟩
  · intro hj
    unfold parse_argv
    rw [hsep]
    dsimp only
    rw [hj]
  · intro js hj hr
    unfold parse_argv
    rw [hsep]
    dsimp only
    rw [hj]
    dsimp only
    rw [hr]
  · intro js rs hj hr hne
    have hne2 : (mapErase (mapErase sp cfg.job_id_key) cfg.repetition_id_key).isEmpty
        = false := by
      cases hm : mapErase (mapErase sp cfg.job_id_key) cfg.repetition_id_key with
      | nil => exact absurd hm hne
      | cons p r => rfl
    refine ⟨?_, sortStrings_sorted _, List.perm_insertionSort _ _, rfl⟩
    unfold parse_argv
    rw [hsep]
    dsimp only
    rw [hj]
    dsimp only
    rw [hr]
    dsimp only
    rw [hne2]
    simp only [Bool.false_eq_true, if_false]

/-- Witness for C4: a missing `--id`, a missing `--rep`, and an unknown
special key, each at a concrete token sequence. -/
theorem special_key_errors_spec_witness :
    parse_argv ["--rep=0", "--"] JobArgvConfig.mkDefault
        = .error (.missingSpecial "job_id" "--id") ∧
    parse_argv ["--id=0", "--"] JobArgvConfig.mkDefault
        = .error (.missingSpecial "repetition_id" "--rep") ∧
    parse_argv ["--id=0", "--rep=0", "--this-doesnt-exist=0", "--"] JobArgvConfig.mkDefault
        = .error (.unknownSpecial ["--this-doesnt-exist"]) := by
  have h1 := special_key_errors_spec ["--rep=0", "--"] JobArgvConfig.mkDefault
      [("--rep", "0")] [] rfl
  have h2 := special_key_errors_spec ["--id=0", "--"] JobArgvConfig.mkDefault
      [("--id", "0")] [] rfl
  have h3 := special_key_errors_spec ["--id=0", "--rep=0", "--this-doesnt-exist=0", "--"]
      JobArgvConfig.mkDefault
      [("--id", "0"), ("--rep", "0"), ("--this-doesnt-exist", "0")] [] rfl
  exact ⟨h1.1 rfl, h2.2.1 "0" rfl rfl, (h3.2.2 "0" "0" rfl rfl (by decide)).1⟩

/-- `split_arg` on a token with no `=` throws the malformed-argument
error. -/
theorem split_arg_no_eq (arg : String)
    (h : arg.data.all (fun c => c != '=') = true) :
    split_arg arg = .error (.malformedArg arg) := by
  have h2 : (arg.data.takeWhile (fun c => c != '=')).length = arg.data.length := by
    rw [takeWhile_eq_self_of_all h]
  unfold split_arg
  dsimp only
  rw [if_pos h2]

/-- `split_arg` splits at the first `=`; the value keeps any later `=`. -/
theorem split_arg_at_first_eq (pre post : List Char)
    (h : pre.all (fun c => c != '=') = true) :
    split_arg ⟨pre ++ '=' :: post⟩ = .ok (⟨pre⟩, ⟨post⟩) := by
  have htake : (pre ++ '=' :: post).takeWhile (fun c => c != '=') = pre := by
    induction pre with
    | nil => simp [List.takeWhile_cons]
    | cons a r ih =>
      simp only [List.all_cons, Bool.and_eq_true] at h
      simp [List.takeWhile_cons, h.1, ih h.2]
  have hlen : pre.length ≠ (pre ++ '=' :: post).length := by
    simp only [List.length_append, List.length_cons]
    omega
  have hdrop : (pre ++ '=' :: post).drop (pre.length + 1) = post := by
    rw [← List.drop_drop, List.drop_left]
    rfl
  unfold split_arg
  dsimp only
  rw [htake, if_neg hlen, hdrop]

/-- A token containing an `=` splits successfully. -/
theorem split_arg_ok_of_has_eq (t : String)
    (h : t.data.all (fun c => c != '=') = false) :
    ∃ k v, split_arg t = .ok (k, v) := by
  have hlt : (t.data.takeWhile (fun c => c != '=')).length ≠ t.data.length := by
    intro hcon
    rw [takeWhile_length_eq_iff_all] at hcon
    rw [hcon] at h
    simp at h
  unfold split_arg
  dsimp only
  rw [if_neg hlt]
  exact ⟨_, _, rfl⟩

theorem sepNormal_malformed : ∀ (tokens : List String) (acc : MapStrStr),
    (∃ t ∈ tokens, t.data.all (fun c => c != '=') = true) →
    ∃ t2 ∈ tokens, t2.data.all (fun c => c != '=') = true ∧
      sepNormal tokens acc = .error (.malformedArg t2)
  | [], _, h => absurd h (by simp)
  | t :: rest, acc, h => by
    by_cases ht : t.data.all (fun c => c != '=') = true
    · exact ⟨t, by simp, ht, by unfold sepNormal; rw [split_arg_no_eq t ht]⟩
    · obtain ⟨k, v, hkv⟩ := split_arg_ok_of_has_eq t (Bool.eq_false_iff.mpr ht)
      have hrest : ∃ t' ∈ rest, t'.data.all (fun c => c != '=') = true := by
        obtain ⟨t', ht', hall⟩ := h
        rcases List.mem_cons.mp ht' with rfl | hmem
        · exact absurd hall ht
        · exact ⟨t', hmem, hall⟩
      obtain ⟨t2, hmem2, hall2, heq⟩ := sepNormal_malformed rest (mapInsert acc k v) hrest
      refine ⟨t2, List.mem_cons_of_mem _ hmem2, hall2, ?_⟩
      unfold sepNormal
      rw [hkv]
      exact heq

theorem sepSpecial_malformed : ∀ (tokens : List String) (acc : MapStrStr),
    (∃ t ∈ regionTokens tokens, t.data.all (fun c => c != '=') = true) →
    ∃ t2 ∈ regionTokens tokens, t2.data.all (fun c => c != '=') = true ∧
      sepSpecial "--" tokens acc = .error (.malformedArg t2)
  | [], _, h => absurd h (by simp [regionTokens])
  | t :: rest, acc, h => by
    by_cases hsep : t = "--"
    · subst hsep
      have hreg : regionTokens ("--" :: rest) = rest := by
        simp [regionTokens, List.takeWhile_cons, List.dropWhile_cons]
      rw [hreg] at h
      obtain ⟨t2, hmem, hall, heq⟩ := sepNormal_malformed rest [] h
      refine ⟨t2, by rw [hreg]; exact hmem, hall, ?_⟩
      unfold sepSpecial
      rw [if_pos rfl, heq]
    · have hreg : regionTokens (t :: rest) = t :: regionTokens rest := by
        simp [regionTokens, List.takeWhile_cons, List.dropWhile_cons, hsep]
      by_cases ht : t.data.all (fun c => c != '=') = true
      · refine ⟨t, by rw [hreg]; exact List.mem_cons_self _ _, ht, ?_⟩
        unfold sepSpecial
        rw [if_neg hsep, split_arg_no_eq t ht]
      · obtain ⟨k, v, hkv⟩ := split_arg_ok_of_has_eq t (Bool.eq_false_iff.mpr ht)
        have hrest : ∃ t' ∈ regionTokens rest, t'.data.all (fun c => c != '=') = true := by
          rw [hreg] at h
          obtain ⟨t', ht', hall⟩ := h
          rcases List.mem_cons.mp ht' with rfl | hmem
          · exact absurd hall ht
          · exact ⟨t', hmem, hall⟩
        obtain ⟨t2, hmem2, hall2, heq⟩ := sepSpecial_malformed rest (mapInsert acc k v) hrest
        refine ⟨t2, by rw [hreg]; exact List.mem_cons_of_mem _ hmem2, hall2, ?_⟩
        unfold sepSpecial
        rw [if_neg hsep, hkv]
        exact heq

/-- C5: tokens of both regions split at their first `=` (the key is the
prefix before it, the value everything after it, later `=` included);
a token with no `=` makes `split_arg` — and hence `parse_commandline`
when such a token lies in either region — fail with the
malformed-argument error. -/
theorem split_and_malformed_spec (tokens : List String) (cfg : JobArgvConfig) :
    (∀ arg : String, arg.data.all (fun c => c != '=') = true →
        split_arg arg = .error (.malformedArg arg)) ∧
    (∀ pre post : List Char, pre.all (fun c => c != '=') = true →
        split_arg ⟨pre ++ '=' :: post⟩ = .ok (⟨pre⟩, ⟨post⟩)) ∧
    ((∃ t ∈ regionTokens tokens, t.data.all (fun c => c != '=') = true) →
        ∃ t2 ∈ regionTokens tokens, t2.data.all (fun c => c != '=') = true ∧
          parse_argv tokens cfg = .error (.malformedArg t2)) := by
  refine ⟨split_arg_no_eq, split_arg_at_first_eq, ?_⟩
  intro h
  obtain ⟨t2, hmem, hall, heq⟩ := sepSpecial_malformed tokens [] h
  refine ⟨t2, hmem, hall, ?_⟩
  unfold parse_argv separate_argv
  rw [heq]

/-- Witness for C5: a token with no `=`, a token with two `=`, and a
normal-region token with no `=` failing the whole parse. -/
theorem split_and_malformed_spec_witness :
    split_arg "nonsense" = .error (.malformedArg "nonsense") ∧
    split_arg "a=b=c" = .ok ("a", "b=c") ∧
    parse_argv ["--id=0", "--rep=0", "--", "x"] JobArgvConfig.mkDefault
        = .error (.malformedArg "x") := by
  have h := split_and_malformed_spec ["--id=0", "--rep=0", "--", "x"] JobArgvConfig.mkDefault
  refine ⟨h.1 "nonsense" (by decide), h.2.1 "a".data "b=c".data (by decide), ?_⟩
  obtain ⟨t2, hmem, hall, heq⟩ := h.2.2 ⟨"x", by decide, by decide⟩
  have hreg : regionTokens ["--id=0", "--rep=0", "--", "x"]
      = ["--id=0", "--rep=0", "x"] := by decide
  rw [hreg] at hmem
  have ht2 : t2 = "x" := by
    rcases List.mem_cons.mp hmem with rfl | hmem2
    · exact absurd hall (by decide)
    rcases List.mem_cons.mp hmem2 with rfl | hmem3
    · exact absurd hall (by decide)
    rcases List.mem_cons.mp hmem3 with rfl | hmem4
    · rfl
    · exact absurd hmem4 (by simp)
  rw [ht2] at heq
  exact heq

/-- C8: `parse_commandline` never parses `argv[0]` — its result equals
running the decoder body on the remaining tokens, so the program-name
token contributes nothing and its content (it need not contain `=`) is
irrelevant. -/
theorem parse_skips_program_name (tok0 : String) (rest : List String)
    (cfg : JobArgvConfig) :
    parse_commandline (tok0 :: rest) cfg = parse_argv rest cfg ∧
    ∀ tok1, parse_commandline (tok0 :: rest) cfg = parse_commandline (tok1 :: rest) cfg :=
  ⟨rfl, fun _ => rfl⟩

theorem sepSpecial_no_sep_append : ∀ (tokens : List String) (acc : MapStrStr),
    "--" ∉ tokens →
    sepSpecial "--" tokens acc = sepSpecial "--" (tokens ++ ["--"]) acc
  | [], _, _ => rfl
  | t :: rest, acc, h => by
    have ht : ¬(t = "--") := fun hcon => h (hcon ▸ List.mem_cons_self _ _)
    have hrest : "--" ∉ rest := fun hcon => h (List.mem_cons_of_mem _ hcon)
    simp only [List.cons_append]
    unfold sepSpecial
    rw [if_neg ht, if_neg ht]
    cases hkv : split_arg t with
    | error e => rfl
    | ok kv => exact sepSpecial_no_sep_append rest (mapInsert acc kv.1 kv.2) hrest

theorem sepSpecial_no_sep_ok_nm : ∀ (tokens : List String) (acc sp nm : MapStrStr),
    "--" ∉ tokens → sepSpecial "--" tokens acc = .ok (sp, nm) → nm = []
  | [], acc, sp, nm, _, h => by
    unfold sepSpecial at h
    simp only [Except.ok.injEq, Prod.mk.injEq] at h
    exact h.2.symm
  | t :: rest, acc, sp, nm, h, heq => by
    have ht : ¬(t = "--") := fun hcon => h (hcon ▸ List.mem_cons_self _ _)
    have hrest : "--" ∉ rest := fun hcon => h (List.mem_cons_of_mem _ hcon)
    unfold sepSpecial at heq
    rw [if_neg ht] at heq
    cases hkv : split_arg t with
    | error e =>
      rw [hkv] at heq
      simp at heq
    | ok kv =>
      rw [hkv] at heq
      exact sepSpecial_no_sep_ok_nm rest (mapInsert acc kv.1 kv.2) sp nm hrest heq

/-- C10: a missing `"--"` separator is not an error — without any `"--"`
token, every token belongs to the special region, the normal map of a
successful separation is empty, and both `separate_argv` and the whole
decoder behave exactly as if a trailing `"--"` had been appended. -/
theorem no_separator_all_special (tokens : List String) (cfg : JobArgvConfig)
    (h : "--" ∉ tokens) :
    separate_argv tokens "--" = separate_argv (tokens ++ ["--"]) "--" ∧
    (∀ sp nm, separate_argv tokens "--" = .ok (sp, nm) → nm = []) ∧
    parse_argv tokens cfg = parse_argv (tokens ++ ["--"]) cfg := by
  have h1 := sepSpecial_no_sep_append tokens [] h
  refine ⟨h1, fun sp nm => sepSpecial_no_sep_ok_nm tokens [] sp nm h, ?_⟩
  unfold parse_argv separate_argv
  rw [h1]

/-- Witness for C10 at the concrete tokens `["--id=4", "--rep=7"]`. -/
theorem no_separator_all_special_witness :
    separate_argv ["--id=4", "--rep=7"] "--"
        = separate_argv ["--id=4", "--rep=7", "--"] "--" ∧
    parse_argv ["--id=4", "--rep=7"] JobArgvConfig.mkDefault
        = parse_argv ["--id=4", "--rep=7", "--"] JobArgvConfig.mkDefault := by
  have h := no_separator_all_special ["--id=4", "--rep=7"] JobArgvConfig.mkDefault (by decide)
  exact ⟨h.1, h.2.2⟩

end Multijob
